import Mathlib

/-!
Verification of the frame-accurate seeking and debounced-seek logic of the
sCAnnotationToolMacOS scripts.

The embedding covers three source components:

* `PyAVFrameSeeker` (zin_pyav_frame_seeker.py): a video container is a list
  of decoded frames in decode order, each with a presentation timestamp
  (pts), a keyframe flag and a pixel buffer.  `seek_to_frame` reproduces the
  keyframe-seek-then-decode-forward procedure: seek backward to the nearest
  keyframe at or before the target time, decode one frame, recompute its
  index from its pts, then decode forward the remaining frames.
* `AVFFrameGrabber` (avf_frame_grabber.py): out-of-range rejection in
  `grab_frame_number`, row-padding trim and BGR(A)-to-RGB channel reorder in
  `grab_frame_at_time`, and the duration-based total-frame estimate.
* `AVFVideoPlayerWindow` (zin_avf_video_player.py): the debounced
  WebSocket-driven seek controller (`seek_to_time_seconds` /
  `perform_ws_seek`), modelled as a step function over update/timer events.

Python floating-point arithmetic is modelled exactly over `ℚ`; Python `int()`
(truncation toward zero) is modelled by `pyInt`.
-/

/-- Python `int()` applied to a rational: truncation toward zero. -/
def pyInt (q : ℚ) : ℤ := if 0 ≤ q then ⌊q⌋ else ⌈q⌉

/-- A decoded video frame: presentation timestamp, keyframe flag and the
pixel buffer produced by `to_ndarray`. -/
structure AVFrame where
  pts : ℤ
  key : Bool
  data : List Nat
deriving DecidableEq

/-- An open PyAV container: the frames of the single video stream in decode
order, plus the decode cursor (index of the next frame `decode` yields). -/
structure AVContainer where
  frames : List AVFrame
  cursor : Nat
deriving DecidableEq

/-- Maximum of a list of naturals (0 for the empty list). -/
def natMax (l : List Nat) : Nat := l.foldr max 0

/-- Whether frame `i` is a keyframe whose presentation time
(`pts * time_base` seconds) is at or before `target` seconds. -/
def keyAtOrBefore (frames : List AVFrame) (tb target : ℚ) (i : Nat) : Bool :=
  match frames.get? i with
  | some fr => fr.key && decide ((fr.pts : ℚ) * tb ≤ target)
  | none => false

/-- `container.seek(offset, backward=True)`: position the decode cursor at
the latest keyframe at or before the requested time.  `offset` is in
microseconds (AV_TIME_BASE units); the requested time in seconds is
`offset / 1000000`.  When no keyframe lies at or before the target the
cursor falls back to the start of the stream. -/
def AVContainer.seekBackward (c : AVContainer) (tb : ℚ) (offset : ℤ) : AVContainer :=
  let target : ℚ := (offset : ℚ) / 1000000
  { c with cursor := natMax ((List.range c.frames.length).filter (keyAtOrBefore c.frames tb target)) }

/-- `next(container.decode(video=0))`: yield the frame under the cursor and
advance, or report exhaustion (`StopIteration`) past the end. -/
def AVContainer.decodeNext (c : AVContainer) : Option AVFrame × AVContainer :=
  match c.frames.get? c.cursor with
  | some f => (some f, { c with cursor := c.cursor + 1 })
  | none => (none, c)

/-- The decode-forward loop `for _ in range(sec_frame, frame_num)`: perform
`n` further decode calls, keeping the most recently decoded frame.  Returns
the final frame (or `none` when the stream is exhausted mid-loop), the
container, and the number of decode calls actually made. -/
def decodeForward (c : AVContainer) (f : AVFrame) : Nat → (Option AVFrame × AVContainer) × Nat
  | 0 => ((some f, c), 0)
  | n + 1 =>
    match c.decodeNext with
    | (some f', c') =>
      let r := decodeForward c' f' n
      (r.1, r.2 + 1)
    | (none, c') => ((none, c'), 1)

/-- The `PyAVFrameSeeker` object: container plus the cached metadata and the
mutable fields `current_frame_num` / `current_frame`.  `seek_count` is a
ghost counter of `container.seek` invocations. -/
structure Seeker where
  container : AVContainer
  framerate : ℚ
  time_base : ℚ
  total_frames : ℤ
  current_frame_num : ℤ
  current_frame : Option (List Nat)
  seek_count : Nat
deriving DecidableEq

/-- `PyAVFrameSeeker.seek_to_frame`, instrumented: returns the result, the
updated seeker, the recomputed keyframe index `sec_frame` and the number of
decode calls made by the decode-forward loop (both 0 on the paths that fail
before the loop). -/
def Seeker.seekAux (s : Seeker) (frame_num : ℤ) : Option (List Nat) × Seeker × ℤ × Nat :=
  if frame_num < 0 ∨ s.total_frames ≤ frame_num then (none, s, 0, 0)
  else
    match (s.container.seekBackward s.time_base
            (pyInt ((frame_num : ℚ) / s.framerate) * 1000000)).decodeNext with
    | (none, c2) => (none, { s with container := c2, seek_count := s.seek_count + 1 }, 0, 0)
    | (some f0, c2) =>
      match decodeForward c2 f0
          (frame_num - pyInt ((f0.pts : ℚ) * s.time_base * s.framerate)).toNat with
      | ((none, c3), k) =>
        (none, { s with container := c3, seek_count := s.seek_count + 1 },
         pyInt ((f0.pts : ℚ) * s.time_base * s.framerate), k)
      | ((some fT, c3), k) =>
        (some fT.data,
         { s with container := c3, seek_count := s.seek_count + 1,
                  current_frame := some fT.data, current_frame_num := frame_num },
         pyInt ((f0.pts : ℚ) * s.time_base * s.framerate), k)

/-- `PyAVFrameSeeker.seek_to_frame`: result and updated seeker. -/
def Seeker.seek_to_frame (s : Seeker) (frame_num : ℤ) : Option (List Nat) × Seeker :=
  ((s.seekAux frame_num).1, (s.seekAux frame_num).2.1)

/-- `PyAVFrameSeeker.get_next_frame`. -/
def Seeker.get_next_frame (s : Seeker) : Option (List Nat) × Seeker :=
  s.seek_to_frame (s.current_frame_num + 1)

/-- A playback session issuing a sequence of frame requests in order. -/
def Seeker.processRequests (s : Seeker) (reqs : List ℤ) : Seeker :=
  reqs.foldl (fun st r => (st.seek_to_frame r).2) s

/-- `np.frombuffer(...).reshape((image_height, bytes_per_row))`: split the
raw byte buffer into `h` rows of `bpr` bytes. -/
def reshapeRows (raw : List Nat) (h bpr : Nat) : List (List Nat) :=
  (List.range h).map (fun y => (raw.drop (y * bpr)).take bpr)

/-- `row.reshape((image_width, bytes_per_pixel))`: split a trimmed row into
`w` pixels of `bpp` bytes. -/
def reshapePixels (row : List Nat) (w bpp : Nat) : List (List Nat) :=
  (List.range w).map (fun x => (row.drop (x * bpp)).take bpp)

/-- The channel reorder of `grab_frame_at_time`: for 4-byte (BGRA/BGRX) and
3-byte (BGR) pixels, build `[R, G, B]` from channels 2, 1, 0; other pixel
widths are passed through unchanged, as in the source. -/
def toRGB (px : List Nat) (bpp : Nat) : List Nat :=
  if bpp = 4 ∨ bpp = 3 then [px.getD 2 0, px.getD 1 0, px.getD 0 0] else px

/-- The numpy post-processing of `grab_frame_at_time`: reshape to
`(h, bytes_per_row)`, trim each row to `w * bpp` bytes when `bytes_per_row`
exceeds it, reshape to `(h, w, bpp)`, then reorder channels to RGB. -/
def processRaw (raw : List Nat) (h w bpr bpp : Nat) : List (List (List Nat)) :=
  let rows := reshapeRows raw h bpr
  let actual := w * bpp
  let trimmed := if bpr > actual then rows.map (fun r => r.take actual) else rows
  trimmed.map (fun r => (reshapePixels r w bpp).map (fun p => toRGB p bpp))

/-- The `AVFFrameGrabber` object.  `frameAt` is the AVFoundation image
generator: it maps a requested time in milliseconds to the raw byte buffer
of the extracted CGImage (or `none` on extraction failure).  `copy_count` is
a ghost counter of `copyCGImageAtTime` invocations. -/
structure AVFGrabber where
  framerate : ℚ
  total_frames : ℤ
  image_width : Nat
  image_height : Nat
  bytes_per_row : Nat
  bits_per_pixel : Nat
  frameAt : ℤ → Option (List Nat)
  copy_count : Nat

/-- `AVFFrameGrabber.grab_frame_at_time`: extract the CGImage at `time_ms`
and normalize its raw bytes to an RGB array. -/
def AVFGrabber.grab_frame_at_time (g : AVFGrabber) (time_ms : ℤ) :
    Option (List (List (List Nat))) × AVFGrabber :=
  let g' := { g with copy_count := g.copy_count + 1 }
  match g.frameAt time_ms with
  | none => (none, g')
  | some raw =>
    (some (processRaw raw g.image_height g.image_width g.bytes_per_row (g.bits_per_pixel / 8)), g')

/-- `AVFFrameGrabber.grab_frame_number`: range check, then convert the frame
number to milliseconds and grab at that time. -/
def AVFGrabber.grab_frame_number (g : AVFGrabber) (frame_num : ℤ) :
    Option (List (List (List Nat))) × AVFGrabber :=
  if frame_num < 0 ∨ g.total_frames ≤ frame_num then (none, g)
  else
    let time_seconds : ℚ := (frame_num : ℚ) / g.framerate
    let time_ms : ℤ := pyInt (time_seconds * 1000)
    g.grab_frame_at_time time_ms

/-- `PyAVFrameSeeker.__init__`: the total-frame count, taken from the stream
or, when the stream reports 0 and a (truthy) duration, estimated as
`int(duration * time_base * framerate)`. -/
def pyavTotalFrames (streamFrames : ℤ) (duration : Option ℤ) (tb fr : ℚ) : ℤ :=
  if streamFrames = 0 then
    match duration with
    | some d => if d = 0 then streamFrames else pyInt ((d : ℚ) * tb * fr)
    | none => streamFrames
  else streamFrames

/-- `AVFFrameGrabber.__init__`: `duration_seconds = value / timescale` and
`total_frames = int(duration_seconds * framerate)`. -/
def avfTotalFrames (durValue durTimescale : ℤ) (fr : ℚ) : ℤ :=
  pyInt ((durValue : ℚ) / (durTimescale : ℚ) * fr)

/-- Events driving the debounced WebSocket seek controller: a timecode
update, or the single-shot debounce timer elapsing. -/
inductive WSEvent where
  | update (t : ℚ)
  | fire
deriving DecidableEq

/-- The `AVFVideoPlayerWindow` seek-controller state: the grabber metadata
it consults, whether a grabber is loaded, the pending seek time, whether the
single-shot debounce timer is running, and a ghost log of the seeks actually
issued to the decoder as (time, frame) pairs. -/
structure WSPlayer where
  framerate : ℚ
  total_frames : ℤ
  grabberLoaded : Bool
  pending : Option ℚ
  timerActive : Bool
  seekLog : List (ℚ × ℤ)
deriving DecidableEq

/-- The frame index computed by `perform_ws_seek`:
`int(time_seconds * framerate)` clamped by `max(0, min(.., total_frames - 1))`. -/
def wsFrame (t fr : ℚ) (total : ℤ) : ℤ :=
  max 0 (min (pyInt (t * fr)) (total - 1))

/-- `AVFVideoPlayerWindow.seek_to_time_seconds`: store the pending seek time
and restart the 30 ms single-shot debounce timer. -/
def WSPlayer.seek_to_time_seconds (p : WSPlayer) (t : ℚ) : WSPlayer :=
  if p.grabberLoaded then { p with pending := some t, timerActive := true } else p

/-- `AVFVideoPlayerWindow.perform_ws_seek`: when a grabber is loaded and a
pending time exists, convert it to a clamped frame number and request that
frame from the decoder (logged). -/
def WSPlayer.perform_ws_seek (p : WSPlayer) : WSPlayer :=
  if p.grabberLoaded then
    match p.pending with
    | some t => { p with seekLog := p.seekLog ++ [(t, wsFrame t p.framerate p.total_frames)] }
    | none => p
  else p

/-- One controller step: an update calls `seek_to_time_seconds`; the timer,
being single-shot, fires only while active, deactivates, and invokes
`perform_ws_seek`. -/
def WSPlayer.step (p : WSPlayer) : WSEvent → WSPlayer
  | .update t => p.seek_to_time_seconds t
  | .fire => if p.timerActive then ({ p with timerActive := false }).perform_ws_seek else p

/-- Run the controller over a sequence of events. -/
def WSPlayer.run (p : WSPlayer) (evs : List WSEvent) : WSPlayer :=
  evs.foldl WSPlayer.step p

/-- A concrete all-keyframe stream at 1 fps with time base 1: frame `i` has
pts `i`. -/
def mkFrames (n : Nat) : List AVFrame :=
  (List.range n).map (fun i => { pts := Int.ofNat i, key := true, data := [i] })

/-- A concrete seeker over an `n`-frame stream, advertising `total` frames. -/
def mkSeeker (n : Nat) (total : ℤ) : Seeker :=
  { container := ⟨mkFrames n, 0⟩
    framerate := 1
    time_base := 1
    total_frames := total
    current_frame_num := 0
    current_frame := none
    seek_count := 0 }

/-- A concrete 13-frame seeker used in witnesses. -/
def demoSeeker : Seeker := mkSeeker 13 13

/-- A concrete 2-frame seeker whose advertised frame count (5) overestimates
the stream, used to witness exhaustion handling. -/
def exhSeeker : Seeker := mkSeeker 2 5

/-- A concrete loaded seek-controller state with no pending seek. -/
def demoPlayer : WSPlayer :=
  { framerate := 30
    total_frames := 100
    grabberLoaded := true
    pending := none
    timerActive := false
    seekLog := [] }

/-- A concrete loaded seek-controller state with a pending seek time. -/
def pendingPlayer : WSPlayer :=
  { framerate := 30
    total_frames := 100
    grabberLoaded := true
    pending := some 2
    timerActive := false
    seekLog := [] }

/-- A concrete grabber whose generator never returns an image. -/
def demoGrabber : AVFGrabber :=
  { framerate := 30
    total_frames := 100
    image_width := 2
    image_height := 1
    bytes_per_row := 10
    bits_per_pixel := 32
    frameAt := fun _ => none
    copy_count := 0 }

/-- The decode cursor right after `seek_to_frame`'s backward keyframe seek. -/
def landing (s : Seeker) (f : ℤ) : Nat :=
  (s.container.seekBackward s.time_base (pyInt ((f : ℚ) / s.framerate) * 1000000)).cursor

/-- The pure result of `seek_to_frame`: the same computation as
`Seeker.seekAux`, expressed as a function of the immutable data only (the
stream contents, time base, frame rate and advertised frame count).  The
decode cursor does not appear: the procedure starts with an unconditional
backward seek that overwrites it. -/
def seekResult (L : List AVFrame) (tb fr : ℚ) (total : ℤ) (f : ℤ) : Option (List Nat) :=
  if f < 0 ∨ total ≤ f then none
  else
    match (AVContainer.seekBackward ⟨L, 0⟩ tb (pyInt ((f : ℚ) / fr) * 1000000)).decodeNext with
    | (none, _) => none
    | (some f0, c2) =>
      match decodeForward c2 f0 (f - pyInt ((f0.pts : ℚ) * tb * fr)).toNat with
      | ((none, _), _) => none
      | ((some fT, _), _) => some fT.data

/-! ### Basic lemmas about the embedding -/

theorem pyInt_of_nonneg {q : ℚ} (h : 0 ≤ q) : pyInt q = ⌊q⌋ := if_pos h

theorem pyInt_eq_floor_of_max {x : ℚ} {T : ℤ} (hT : 1 ≤ T) :
    max 0 (min (pyInt x) (T - 1)) = max 0 (min ⌊x⌋ (T - 1)) := by
  by_cases h : 0 ≤ x
  · rw [pyInt_of_nonneg h]
  · push_neg at h
    have hfloor : ⌊x⌋ ≤ 0 := Int.floor_nonpos h.le
    have hceil : ⌈x⌉ ≤ 0 := Int.ceil_le.mpr (by exact_mod_cast h.le)
    have hpy : pyInt x ≤ 0 := by rw [pyInt, if_neg (not_le.mpr h)]; exact hceil
    omega

theorem natMax_eq_zero_or_mem (l : List Nat) : natMax l = 0 ∨ natMax l ∈ l := by
  induction l with
  | nil => exact Or.inl rfl
  | cons a t ih =>
    have hfold : natMax (a :: t) = max a (natMax t) := rfl
    rcases max_choice a (natMax t) with h | h
    · right
      rw [hfold, h]
      exact List.mem_cons_self a t
    · rcases ih with h0 | hm
      · left
        rw [hfold, h, h0]
      · right
        rw [hfold, h]
        exact List.mem_cons_of_mem a hm

theorem decodeForward_frames (n : Nat) : ∀ (c : AVContainer) (f0 : AVFrame),
    ((decodeForward c f0 n).1.2).frames = c.frames := by
  induction n with
  | zero => intro c f0; rfl
  | succ m ih =>
    intro c f0
    unfold decodeForward AVContainer.decodeNext
    cases hget : c.frames.get? c.cursor with
    | some fr => simpa using ih { c with cursor := c.cursor + 1 } fr
    | none => rfl

theorem decodeForward_count (n : Nat) : ∀ (c : AVContainer) (f0 : AVFrame),
    (decodeForward c f0 n).2 ≤ n := by
  induction n with
  | zero => intro c f0; exact Nat.le_refl 0
  | succ m ih =>
    intro c f0
    unfold decodeForward AVContainer.decodeNext
    cases hget : c.frames.get? c.cursor with
    | some fr => simpa using Nat.succ_le_succ (ih { c with cursor := c.cursor + 1 } fr)
    | none => exact Nat.succ_le_succ (Nat.zero_le m)

theorem decodeForward_get (n : Nat) :
    ∀ (c : AVContainer) (f0 : AVFrame) (h : c.cursor + n < c.frames.length),
    ∃ c' k', decodeForward c f0 (n + 1) = ((some (c.frames.get ⟨c.cursor + n, h⟩), c'), k') := by
  induction n with
  | zero =>
    intro c f0 h
    have hget : c.frames.get? c.cursor = some (c.frames.get ⟨c.cursor + 0, h⟩) := by
      simp only [Nat.add_zero]
      exact List.get?_eq_get (by omega : c.cursor < c.frames.length)
    refine ⟨{ c with cursor := c.cursor + 1 }, 1, ?_⟩
    unfold decodeForward AVContainer.decodeNext
    rw [hget]
    rfl
  | succ m ih =>
    intro c f0 h
    have hcl : c.cursor < c.frames.length := by omega
    have hget : c.frames.get? c.cursor = some (c.frames.get ⟨c.cursor, hcl⟩) :=
      List.get?_eq_get hcl
    obtain ⟨c', k', hr⟩ :=
      ih { c with cursor := c.cursor + 1 } (c.frames.get ⟨c.cursor, hcl⟩)
        (by show c.cursor + 1 + m < c.frames.length; omega)
    refine ⟨c', k' + 1, ?_⟩
    unfold decodeForward AVContainer.decodeNext
    rw [hget]
    simp only [hr]
    have hidxeq : c.cursor + 1 + m = c.cursor + (m + 1) := by omega
    congr 2
    simp [hidxeq]

theorem decodeForward_exhaust (n : Nat) :
    ∀ (c : AVContainer) (f0 : AVFrame), c.frames.length ≤ c.cursor + n →
    ∃ c' k', decodeForward c f0 (n + 1) = ((none, c'), k') := by
  induction n with
  | zero =>
    intro c f0 h
    have hget : c.frames.get? c.cursor = none := List.get?_eq_none.mpr (by omega)
    refine ⟨c, 1, ?_⟩
    unfold decodeForward AVContainer.decodeNext
    rw [hget]
  | succ m ih =>
    intro c f0 h
    cases hget : c.frames.get? c.cursor with
    | none =>
      refine ⟨c, 1, ?_⟩
      unfold decodeForward AVContainer.decodeNext
      rw [hget]
    | some fr =>
      obtain ⟨c', k', hr⟩ := ih { c with cursor := c.cursor + 1 } fr
        (by show c.frames.length ≤ c.cursor + 1 + m; omega)
      refine ⟨c', k' + 1, ?_⟩
      unfold decodeForward AVContainer.decodeNext
      rw [hget]
      simp only [hr]

theorem seekBackward_frames (c : AVContainer) (tb : ℚ) (off : ℤ) :
    (c.seekBackward tb off).frames = c.frames := rfl

theorem keyAtOrBefore_true {frames : List AVFrame} {tb target : ℚ} {i : Nat}
    (hi : i < frames.length) (h : keyAtOrBefore frames tb target i = true) :
    ((frames.get ⟨i, hi⟩).pts : ℚ) * tb ≤ target := by
  unfold keyAtOrBefore at h
  rw [List.get?_eq_get hi] at h
  simp only [Bool.and_eq_true, decide_eq_true_eq] at h
  exact h.2

theorem seekBackward_cases (c : AVContainer) (tb : ℚ) (off : ℤ) :
    (c.seekBackward tb off).cursor = 0 ∨
      ((c.seekBackward tb off).cursor < c.frames.length ∧
        keyAtOrBefore c.frames tb ((off : ℚ) / 1000000) (c.seekBackward tb off).cursor = true) := by
  rcases natMax_eq_zero_or_mem
      ((List.range c.frames.length).filter (keyAtOrBefore c.frames tb ((off : ℚ) / 1000000)))
    with h | h
  · exact Or.inl h
  · right
    have hmem := List.mem_filter.mp h
    exact ⟨List.mem_range.mp hmem.1, hmem.2⟩

theorem seek_entry (s : Seeker) (f : ℤ)
    (h0 : 0 ≤ f) (hfr : 0 < s.framerate) (htb : 0 ≤ s.time_base)
    (hlen0 : 0 < s.container.frames.length)
    (hpts : ∀ i, (hi : i < s.container.frames.length) →
      0 ≤ (s.container.frames.get ⟨i, hi⟩).pts)
    (hidx : ∀ i, (hi : i < s.container.frames.length) →
      ⌊((s.container.frames.get ⟨i, hi⟩).pts : ℚ) * s.time_base * s.framerate⌋ = (i : ℤ)) :
    ∃ hk : landing s f < s.container.frames.length,
      (s.container.seekBackward s.time_base
          (pyInt ((f : ℚ) / s.framerate) * 1000000)).decodeNext
        = (some (s.container.frames.get ⟨landing s f, hk⟩),
           ⟨s.container.frames, landing s f + 1⟩) ∧
      (landing s f : ℤ) ≤ f ∧
      pyInt (((s.container.frames.get ⟨landing s f, hk⟩).pts : ℚ)
          * s.time_base * s.framerate) = (landing s f : ℤ) := by
  have hcase := seekBackward_cases s.container s.time_base
    (pyInt ((f : ℚ) / s.framerate) * 1000000)
  have hk : landing s f < s.container.frames.length := by
    rcases hcase with h | h
    · rw [landing, h]; exact hlen0
    · exact h.1
  have hsec_nonneg : (0 : ℚ) ≤ (f : ℚ) / s.framerate :=
    div_nonneg (by exact_mod_cast h0) hfr.le
  have hsecle : ((pyInt ((f : ℚ) / s.framerate) : ℤ) : ℚ) * s.framerate ≤ (f : ℚ) := by
    have h1 : ((pyInt ((f : ℚ) / s.framerate) : ℤ) : ℚ) ≤ (f : ℚ) / s.framerate := by
      rw [pyInt_of_nonneg hsec_nonneg]
      exact_mod_cast Int.floor_le ((f : ℚ) / s.framerate)
    calc ((pyInt ((f : ℚ) / s.framerate) : ℤ) : ℚ) * s.framerate
        ≤ ((f : ℚ) / s.framerate) * s.framerate := mul_le_mul_of_nonneg_right h1 hfr.le
      _ = (f : ℚ) := div_mul_cancel₀ _ (ne_of_gt hfr)
  have hkf : (landing s f : ℤ) ≤ f := by
    rcases hcase with h | h
    · rw [landing, h]; exact_mod_cast h0
    · obtain ⟨hlt, hpred⟩ := h
      have hptarget := keyAtOrBefore_true hlt hpred
      have htgt : ((pyInt ((f : ℚ) / s.framerate) * 1000000 : ℤ) : ℚ) / 1000000
          = ((pyInt ((f : ℚ) / s.framerate) : ℤ) : ℚ) := by
        push_cast
        exact mul_div_cancel_right₀ _ (by norm_num)
      rw [htgt] at hptarget
      have hx : ((s.container.frames.get ⟨landing s f, hk⟩).pts : ℚ)
          * s.time_base * s.framerate ≤ (f : ℚ) :=
        le_trans (mul_le_mul_of_nonneg_right hptarget hfr.le) hsecle
      have hkfl := (hidx (landing s f) hk).symm
      calc (landing s f : ℤ)
          = ⌊((s.container.frames.get ⟨landing s f, hk⟩).pts : ℚ)
              * s.time_base * s.framerate⌋ := hkfl
        _ ≤ ⌊(f : ℚ)⌋ := Int.floor_mono hx
        _ = f := Int.floor_intCast f
  have hget : s.container.frames.get? (landing s f)
      = some (s.container.frames.get ⟨landing s f, hk⟩) := List.get?_eq_get hk
  have hnn : (0 : ℚ) ≤ ((s.container.frames.get ⟨landing s f, hk⟩).pts : ℚ)
      * s.time_base * s.framerate :=
    mul_nonneg (mul_nonneg (by exact_mod_cast hpts (landing s f) hk) htb) hfr.le
  refine ⟨hk, ?_, hkf, ?_⟩
  · unfold AVContainer.decodeNext
    rw [show (s.container.seekBackward s.time_base
        (pyInt ((f : ℚ) / s.framerate) * 1000000)).frames = s.container.frames from rfl]
    rw [show (s.container.seekBackward s.time_base
        (pyInt ((f : ℚ) / s.framerate) * 1000000)).cursor = landing s f from rfl]
    rw [hget]
  · rw [pyInt_of_nonneg hnn]
    exact hidx (landing s f) hk

/-- C1: for every valid frame index `f`, `seek_to_frame f` succeeds and
returns the decoded frame whose recomputed index
`floor(pts * time_base * framerate)` equals `f`: the
keyframe-seek-then-decode-forward procedure lands exactly on frame `f`.
The stream hypotheses say that the container really holds the advertised
frames and that each frame's pts recomputes to its own index. -/
theorem seek_lands_on_target (s : Seeker) (f : ℤ)
    (h0 : 0 ≤ f) (h1 : f < s.total_frames)
    (hfr : 0 < s.framerate) (htb : 0 ≤ s.time_base)
    (hlen : s.total_frames ≤ (s.container.frames.length : ℤ))
    (hpts : ∀ i, (hi : i < s.container.frames.length) →
      0 ≤ (s.container.frames.get ⟨i, hi⟩).pts)
    (hidx : ∀ i, (hi : i < s.container.frames.length) →
      ⌊((s.container.frames.get ⟨i, hi⟩).pts : ℚ) * s.time_base * s.framerate⌋ = (i : ℤ)) :
    ∃ hf : f.toNat < s.container.frames.length,
      (s.seek_to_frame f).1 = some ((s.container.frames.get ⟨f.toNat, hf⟩).data) ∧
      ⌊((s.container.frames.get ⟨f.toNat, hf⟩).pts : ℚ) * s.time_base * s.framerate⌋ = f := by
  have hf : f.toNat < s.container.frames.length := by omega
  have hlen0 : 0 < s.container.frames.length := by omega
  obtain ⟨hk, hdn, hkf, hpy⟩ := seek_entry s f h0 hfr htb hlen0 hpts hidx
  refine ⟨hf, ?_, by
    have h := hidx f.toNat hf
    rwa [Int.toNat_of_nonneg h0] at h⟩
  unfold Seeker.seek_to_frame Seeker.seekAux
  rw [if_neg (by omega : ¬(f < 0 ∨ s.total_frames ≤ f)), hdn]
  dsimp only
  rw [hpy]
  rcases Nat.eq_zero_or_pos (f - (landing s f : ℤ)).toNat with hz | hp
  · have hlf : landing s f = f.toNat := by omega
    rw [hz]
    simp only [decodeForward, hlf]
  · obtain ⟨m, hm⟩ := Nat.exists_eq_add_of_le hp
    have hcm : (⟨s.container.frames, landing s f + 1⟩ : AVContainer).cursor + m
        < (⟨s.container.frames, landing s f + 1⟩ : AVContainer).frames.length := by
      show landing s f + 1 + m < s.container.frames.length
      omega
    obtain ⟨c', k', hr⟩ := decodeForward_get m ⟨s.container.frames, landing s f + 1⟩
      (s.container.frames.get ⟨landing s f, hk⟩) hcm
    rw [show (f - (landing s f : ℤ)).toNat = m + 1 by omega]
    rw [hr]
    have hlf : landing s f + 1 + m = f.toNat := by omega
    simp only [hlf]

theorem decodeNext_frames (c : AVContainer) : ((c.decodeNext).2).frames = c.frames := by
  unfold AVContainer.decodeNext
  cases hget : c.frames.get? c.cursor <;> rfl

theorem seek_meta_preserved (s : Seeker) (f : ℤ) :
    (s.seek_to_frame f).2.container.frames = s.container.frames ∧
    (s.seek_to_frame f).2.framerate = s.framerate ∧
    (s.seek_to_frame f).2.time_base = s.time_base ∧
    (s.seek_to_frame f).2.total_frames = s.total_frames := by
  unfold Seeker.seek_to_frame Seeker.seekAux
  by_cases hrange : f < 0 ∨ s.total_frames ≤ f
  · rw [if_pos hrange]
    exact ⟨rfl, rfl, rfl, rfl⟩
  · rw [if_neg hrange]
    rcases hdn : (s.container.seekBackward s.time_base
        (pyInt ((f : ℚ) / s.framerate) * 1000000)).decodeNext with ⟨o, c2⟩
    have hc2 : c2.frames = s.container.frames := by
      have h := decodeNext_frames (s.container.seekBackward s.time_base
        (pyInt ((f : ℚ) / s.framerate) * 1000000))
      rw [hdn] at h
      exact h
    cases o with
    | none => exact ⟨hc2, rfl, rfl, rfl⟩
    | some f0 =>
      dsimp only
      rcases hdf : decodeForward c2 f0
          (f - pyInt ((f0.pts : ℚ) * s.time_base * s.framerate)).toNat with ⟨⟨o3, c3⟩, k⟩
      have hc3 : c3.frames = c2.frames := by
        have h := decodeForward_frames
          (f - pyInt ((f0.pts : ℚ) * s.time_base * s.framerate)).toNat c2 f0
        rw [hdf] at h
        exact h
      cases o3 with
      | none => exact ⟨by rw [hc3, hc2], rfl, rfl, rfl⟩
      | some fT => exact ⟨by rw [hc3, hc2], rfl, rfl, rfl⟩

theorem seek_count_in_range (s : Seeker) (f : ℤ) (h0 : 0 ≤ f) (h1 : f < s.total_frames) :
    (s.seek_to_frame f).2.seek_count = s.seek_count + 1 := by
  unfold Seeker.seek_to_frame Seeker.seekAux
  rw [if_neg (by omega : ¬(f < 0 ∨ s.total_frames ≤ f))]
  rcases hdn : (s.container.seekBackward s.time_base
      (pyInt ((f : ℚ) / s.framerate) * 1000000)).decodeNext with ⟨o, c2⟩
  cases o with
  | none => rfl
  | some f0 =>
    dsimp only
    rcases hdf : decodeForward c2 f0
        (f - pyInt ((f0.pts : ℚ) * s.time_base * s.framerate)).toNat with ⟨⟨o3, c3⟩, k⟩
    cases o3 <;> rfl

theorem seek_fst_eq_seekResult (s : Seeker) (f : ℤ) :
    (s.seek_to_frame f).1
      = seekResult s.container.frames s.time_base s.framerate s.total_frames f := by
  unfold Seeker.seek_to_frame Seeker.seekAux seekResult
  by_cases hrange : f < 0 ∨ s.total_frames ≤ f
  · rw [if_pos hrange, if_pos hrange]
  · rw [if_neg hrange, if_neg hrange]
    have hsb : s.container.seekBackward s.time_base (pyInt ((f : ℚ) / s.framerate) * 1000000)
        = AVContainer.seekBackward ⟨s.container.frames, 0⟩ s.time_base
            (pyInt ((f : ℚ) / s.framerate) * 1000000) := rfl
    rw [hsb]
    rcases hdn : (AVContainer.seekBackward ⟨s.container.frames, 0⟩ s.time_base
        (pyInt ((f : ℚ) / s.framerate) * 1000000)).decodeNext with ⟨o, c2⟩
    cases o with
    | none => rfl
    | some f0 =>
      dsimp only
      rcases hdf : decodeForward c2 f0
          (f - pyInt ((f0.pts : ℚ) * s.time_base * s.framerate)).toNat with ⟨⟨o3, c3⟩, k⟩
      cases o3 <;> rfl

/-- C10: whenever `seek_to_frame` fails — out-of-range index, exhausted
stream, or a decode failure before the result is produced — it returns
`none` and the seeker's observable state is untouched: `current_frame_num`
and `current_frame` keep their previous values, because they are assigned
only on the success path. -/
theorem seek_failure_keeps_current (s : Seeker) (f : ℤ)
    (h : (s.seek_to_frame f).1 = none) :
    (s.seek_to_frame f).2.current_frame_num = s.current_frame_num ∧
    (s.seek_to_frame f).2.current_frame = s.current_frame := by
  unfold Seeker.seek_to_frame Seeker.seekAux at h ⊢
  by_cases hrange : f < 0 ∨ s.total_frames ≤ f
  · rw [if_pos hrange]
    exact ⟨rfl, rfl⟩
  · rw [if_neg hrange] at h ⊢
    rcases hdn : (s.container.seekBackward s.time_base
        (pyInt ((f : ℚ) / s.framerate) * 1000000)).decodeNext with ⟨o, c2⟩
    rw [hdn] at h
    cases o with
    | none => exact ⟨rfl, rfl⟩
    | some f0 =>
      dsimp only at h ⊢
      rcases hdf : decodeForward c2 f0
          (f - pyInt ((f0.pts : ℚ) * s.time_base * s.framerate)).toNat with ⟨⟨o3, c3⟩, k⟩
      rw [hdf] at h
      cases o3 with
      | none => exact ⟨rfl, rfl⟩
      | some fT => exact absurd h (by simp)

theorem seek_rejects_out_of_range (s : Seeker) (f : ℤ)
    (h : f < 0 ∨ s.total_frames ≤ f) : s.seek_to_frame f = (none, s) := by
  unfold Seeker.seek_to_frame Seeker.seekAux
  rw [if_pos h]

theorem grab_rejects_out_of_range (g : AVFGrabber) (f : ℤ)
    (h : f < 0 ∨ g.total_frames ≤ f) : g.grab_frame_number f = (none, g) := by
  unfold AVFGrabber.grab_frame_number
  rw [if_pos h]

/-- C9: seeking is deterministic: for a valid frame index `f`, seeking to
frame `f` and immediately re-requesting frame `f` on the resulting seeker
returns the identical pixel buffer.  The result of `seek_to_frame` depends
only on the immutable stream data, which the first call preserves. -/
theorem seek_roundtrip_deterministic (s : Seeker) (f : ℤ)
    (_h0 : 0 ≤ f) (_h1 : f < s.total_frames) :
    ((s.seek_to_frame f).2.seek_to_frame f).1 = (s.seek_to_frame f).1 := by
  have hm := seek_meta_preserved s f
  rw [seek_fst_eq_seekResult ((s.seek_to_frame f).2) f, seek_fst_eq_seekResult s f,
    hm.1, hm.2.1, hm.2.2.1, hm.2.2.2]

/-- C3 (amended): there is no forward-only cursor-reuse optimization: every
in-range `seek_to_frame` request performs exactly one fresh backward
keyframe seek, so a session of `n` in-range requests (monotone or not)
performs exactly `n` keyframe seeks. -/
theorem each_request_one_seek (s : Seeker) (reqs : List ℤ)
    (h : ∀ r ∈ reqs, 0 ≤ r ∧ r < s.total_frames) :
    (s.processRequests reqs).seek_count = s.seek_count + reqs.length := by
  induction reqs generalizing s with
  | nil => rfl
  | cons r t ih =>
    have hr := h r (List.mem_cons_self r t)
    have hcount := seek_count_in_range s r hr.1 hr.2
    have hmeta := seek_meta_preserved s r
    have hstep : s.processRequests (r :: t) = ((s.seek_to_frame r).2).processRequests t := rfl
    rw [hstep, ih ((s.seek_to_frame r).2) ?_]
    · rw [hcount, List.length_cons]
      omega
    · intro x hx
      obtain ⟨hx0, hx1⟩ := h x (List.mem_cons_of_mem r hx)
      refine ⟨hx0, ?_⟩
      rw [hmeta.2.2.2]
      exact hx1

/-- C3 (counterexample): on a concrete 13-frame stream, the monotonically
increasing request sequence 10, 11, 12 triggers three backward keyframe
seeks, not at most one: the code reseeks on every request. -/
theorem forward_requests_reseek_every_time :
    demoSeeker.seek_count = 0 ∧
    (demoSeeker.processRequests [10, 11, 12]).seek_count = 3 := by
  constructor
  · rfl
  · have t1 : (demoSeeker.seek_to_frame 10).2.total_frames = demoSeeker.total_frames :=
      (seek_meta_preserved demoSeeker 10).2.2.2
    have t2 : ((demoSeeker.seek_to_frame 10).2.seek_to_frame 11).2.total_frames
        = (demoSeeker.seek_to_frame 10).2.total_frames :=
      (seek_meta_preserved (demoSeeker.seek_to_frame 10).2 11).2.2.2
    have e1 : (demoSeeker.seek_to_frame 10).2.seek_count = demoSeeker.seek_count + 1 :=
      seek_count_in_range demoSeeker 10 (by decide) (by decide)
    have e2 : ((demoSeeker.seek_to_frame 10).2.seek_to_frame 11).2.seek_count
        = (demoSeeker.seek_to_frame 10).2.seek_count + 1 :=
      seek_count_in_range (demoSeeker.seek_to_frame 10).2 11 (by decide)
        (by rw [t1]; decide)
    have e3 : (((demoSeeker.seek_to_frame 10).2.seek_to_frame 11).2.seek_to_frame 12).2.seek_count
        = ((demoSeeker.seek_to_frame 10).2.seek_to_frame 11).2.seek_count + 1 :=
      seek_count_in_range ((demoSeeker.seek_to_frame 10).2.seek_to_frame 11).2 12 (by decide)
        (by rw [t2, t1]; decide)
    show (((demoSeeker.seek_to_frame 10).2.seek_to_frame 11).2.seek_to_frame 12).2.seek_count = 3
    rw [e3, e2, e1]
    rfl

/-- C4: an out-of-range frame index is rejected by both backends with a
no-frame outcome, without touching the decoder: the seeker and the grabber
are returned completely unchanged (cursor and ghost call counters
included). -/
theorem out_of_range_no_decoder_call (s : Seeker) (g : AVFGrabber) (f : ℤ)
    (hs : f < 0 ∨ s.total_frames ≤ f) (hg : f < 0 ∨ g.total_frames ≤ f) :
    s.seek_to_frame f = (none, s) ∧ g.grab_frame_number f = (none, g) :=
  ⟨seek_rejects_out_of_range s f hs, grab_rejects_out_of_range g f hg⟩

/-- C6: the decode-forward loop is bounded and exhaustion-safe.  For an
in-range target `f`: (a) the loop performs at most
`target - sec_frame` decode calls, where `sec_frame` is the recomputed
index of the keyframe the backward seek landed on (third component of
`seekAux`); (b) if the stream actually holds at most `f` frames (the
advertised `total_frames` overestimates the stream), the decode-forward
loop exhausts the stream and the call reports failure (`none`) instead of
looping forever. -/
theorem decode_forward_bounded (s : Seeker) (f : ℤ)
    (h0 : 0 ≤ f) (h1 : f < s.total_frames)
    (hfr : 0 < s.framerate) (htb : 0 ≤ s.time_base)
    (hlen0 : 0 < s.container.frames.length)
    (hpts : ∀ i, (hi : i < s.container.frames.length) →
      0 ≤ (s.container.frames.get ⟨i, hi⟩).pts)
    (hidx : ∀ i, (hi : i < s.container.frames.length) →
      ⌊((s.container.frames.get ⟨i, hi⟩).pts : ℚ) * s.time_base * s.framerate⌋ = (i : ℤ)) :
    (s.seekAux f).2.2.2 ≤ (f - (s.seekAux f).2.2.1).toNat ∧
    ((s.container.frames.length : ℤ) ≤ f → (s.seekAux f).1 = none) := by
  obtain ⟨hk, hdn, hkf, hpy⟩ := seek_entry s f h0 hfr htb hlen0 hpts hidx
  unfold Seeker.seekAux
  rw [if_neg (by omega : ¬(f < 0 ∨ s.total_frames ≤ f)), hdn]
  dsimp only
  rw [hpy]
  constructor
  · rcases hdf : decodeForward ⟨s.container.frames, landing s f + 1⟩
        (s.container.frames.get ⟨landing s f, hk⟩)
        (f - (landing s f : ℤ)).toNat with ⟨⟨o3, c3⟩, k⟩
    have hcount := decodeForward_count (f - (landing s f : ℤ)).toNat
      ⟨s.container.frames, landing s f + 1⟩ (s.container.frames.get ⟨landing s f, hk⟩)
    rw [hdf] at hcount
    cases o3 <;> exact hcount
  · intro hexh
    obtain ⟨m, hm⟩ : ∃ m, (f - (landing s f : ℤ)).toNat = m + 1 :=
      ⟨(f - (landing s f : ℤ)).toNat - 1, by omega⟩
    obtain ⟨c', k', hr⟩ := decodeForward_exhaust m ⟨s.container.frames, landing s f + 1⟩
      (s.container.frames.get ⟨landing s f, hk⟩)
      (by
        show s.container.frames.length ≤ landing s f + 1 + m
        omega)
    rw [hm, hr]

theorem run_append (p : WSPlayer) (a b : List WSEvent) :
    p.run (a ++ b) = (p.run a).run b :=
  List.foldl_append WSPlayer.step p a b

theorem run_updates (p : WSPlayer) (ts : List ℚ) (hne : ts ≠ [])
    (hl : p.grabberLoaded = true) :
    p.run (ts.map WSEvent.update)
      = { p with pending := some (ts.getLast hne), timerActive := true } := by
  induction ts generalizing p with
  | nil => exact absurd rfl hne
  | cons t rest ih =>
    cases rest with
    | nil =>
      show p.seek_to_time_seconds t = _
      unfold WSPlayer.seek_to_time_seconds
      rw [if_pos hl]
      rfl
    | cons t2 rest2 =>
      have hne2 : (t2 :: rest2 : List ℚ) ≠ [] := by simp
      have hstep : p.run ((t :: t2 :: rest2).map WSEvent.update)
          = (p.seek_to_time_seconds t).run ((t2 :: rest2).map WSEvent.update) := rfl
      have hl2 : (p.seek_to_time_seconds t).grabberLoaded = true := by
        unfold WSPlayer.seek_to_time_seconds
        rw [if_pos hl]
        exact hl
      rw [hstep, ih (p.seek_to_time_seconds t) hne2 hl2]
      unfold WSPlayer.seek_to_time_seconds
      rw [if_pos hl]
      rw [List.getLast_cons hne2]

/-- C2: for every nonempty burst of time updates delivered within one
settle interval (so the single-shot debounce timer fires only after the
last one), exactly one decoder seek is issued, and it targets the most
recently received time; no intermediate value is ever seeked to. -/
theorem debounce_single_seek (p : WSPlayer) (ts : List ℚ) (hne : ts ≠ [])
    (hl : p.grabberLoaded = true) :
    (p.run (ts.map WSEvent.update ++ [WSEvent.fire])).seekLog
      = p.seekLog
        ++ [(ts.getLast hne, wsFrame (ts.getLast hne) p.framerate p.total_frames)] := by
  rw [run_append, run_updates p ts hne hl]
  show ((({ p with pending := some (ts.getLast hne), timerActive := true } : WSPlayer)).step
    WSEvent.fire).seekLog = _
  unfold WSPlayer.step
  rw [if_pos rfl]
  unfold WSPlayer.perform_ws_seek
  rw [if_pos hl]

/-- C5: when a grabber is loaded with at least one frame and a pending time
`t` exists, `perform_ws_seek` requests exactly the frame
`max 0 (min (floor (t * framerate)) (total_frames - 1))` — the Python
`int()` truncation agrees with the claimed `floor` once clamped — and that
frame is always in range, for negative `t` and for `t` past the end too. -/
theorem ws_seek_clamped_in_range (p : WSPlayer) (t : ℚ)
    (hl : p.grabberLoaded = true) (hp : p.pending = some t)
    (ht : 1 ≤ p.total_frames) :
    p.perform_ws_seek.seekLog
      = p.seekLog ++ [(t, wsFrame t p.framerate p.total_frames)] ∧
    wsFrame t p.framerate p.total_frames
      = max 0 (min ⌊t * p.framerate⌋ (p.total_frames - 1)) ∧
    0 ≤ wsFrame t p.framerate p.total_frames ∧
    wsFrame t p.framerate p.total_frames < p.total_frames := by
  refine ⟨?_, pyInt_eq_floor_of_max ht, le_max_left 0 _, ?_⟩
  · unfold WSPlayer.perform_ws_seek
    rw [if_pos hl, hp]
  · have hmin : min (pyInt (t * p.framerate)) (p.total_frames - 1) ≤ p.total_frames - 1 :=
      min_le_right _ _
    unfold wsFrame
    omega

theorem getD_take_of_lt (l : List Nat) (n i d : Nat) (h : i < n) :
    (l.take n).getD i d = l.getD i d := by
  rw [List.getD_eq_get?, List.getD_eq_get?, List.get?_take h]

theorem getD_drop_add (l : List Nat) (n i d : Nat) :
    (l.drop n).getD i d = l.getD (n + i) d := by
  rw [List.getD_eq_get?, List.getD_eq_get?, List.get?_drop]

/-- C7: for a raw decoded buffer whose stride `bytes_per_row` exceeds
`width * bytes_per_pixel`, and a 4-byte (BGRA/BGRX) or 3-byte (BGR) pixel
format, the normalization trims each row to `width * bytes_per_pixel`
bytes before reshaping and reorders the channels, producing an array of
shape `(height, width, 3)` whose pixel `(y, x)` is
`[raw[y*stride + x*bpp + 2], raw[y*stride + x*bpp + 1], raw[y*stride + x*bpp]]`
— canonical RGB order read from the BGR(A) source bytes. -/
theorem raw_buffer_rgb_normalized (raw : List Nat) (h w bpr bpp : Nat)
    (hbpr : w * bpp < bpr) (hbpp : bpp = 4 ∨ bpp = 3) :
    (processRaw raw h w bpr bpp).length = h ∧
    (∀ row ∈ processRaw raw h w bpr bpp, row.length = w ∧ ∀ px ∈ row, px.length = 3) ∧
    (∀ y x, y < h → x < w →
      ((processRaw raw h w bpr bpp).getD y []).getD x []
        = [raw.getD (y * bpr + x * bpp + 2) 0,
           raw.getD (y * bpr + x * bpp + 1) 0,
           raw.getD (y * bpr + x * bpp) 0]) := by
  have hbpp2 : 2 < bpp := by rcases hbpp with h4 | h3 <;> omega
  have hpix : ∀ px bpp', bpp' = bpp →
      toRGB px bpp' = [px.getD 2 0, px.getD 1 0, px.getD 0 0] := by
    intro px bpp' hb
    unfold toRGB
    rw [if_pos (by rcases hbpp with h4 | h3 <;> omega)]
  refine ⟨?_, ?_, ?_⟩
  · unfold processRaw reshapeRows
    dsimp only
    rw [if_pos hbpr]
    simp
  · intro row hrow
    unfold processRaw reshapeRows at hrow
    dsimp only at hrow
    rw [if_pos hbpr] at hrow
    simp only [List.mem_map, List.mem_range] at hrow
    obtain ⟨r, _, hrw⟩ := hrow
    constructor
    · rw [← hrw]
      simp [reshapePixels]
    · intro px hpx
      rw [← hrw] at hpx
      simp only [List.mem_map] at hpx
      obtain ⟨p, _, hpw⟩ := hpx
      rw [← hpw, hpix p bpp rfl]
      rfl
  · intro y x hy hx
    have hrow : (processRaw raw h w bpr bpp).get? y
        = some ((reshapePixels (((raw.drop (y * bpr)).take bpr).take (w * bpp)) w bpp).map
            (fun p => toRGB p bpp)) := by
      unfold processRaw reshapeRows
      dsimp only
      rw [if_pos hbpr]
      rw [List.get?_map, List.get?_map, List.get?_map, List.get?_range hy]
      rfl
    have hrowD : (processRaw raw h w bpr bpp).getD y []
        = (reshapePixels (((raw.drop (y * bpr)).take bpr).take (w * bpp)) w bpp).map
            (fun p => toRGB p bpp) := by
      rw [List.getD_eq_get?, hrow]
      rfl
    rw [hrowD]
    have hpx : ((reshapePixels (((raw.drop (y * bpr)).take bpr).take (w * bpp)) w bpp).map
          (fun p => toRGB p bpp)).get? x
        = some (toRGB (((((raw.drop (y * bpr)).take bpr).take (w * bpp)).drop (x * bpp)).take bpp)
            bpp) := by
      unfold reshapePixels
      rw [List.get?_map, List.get?_map, List.get?_range hx]
      rfl
    have hpxD : ((reshapePixels (((raw.drop (y * bpr)).take bpr).take (w * bpp)) w bpp).map
          (fun p => toRGB p bpp)).getD x []
        = toRGB (((((raw.drop (y * bpr)).take bpr).take (w * bpp)).drop (x * bpp)).take bpp)
            bpp := by
      rw [List.getD_eq_get?, hpx]
      rfl
    rw [hpxD, hpix _ bpp rfl]
    have hbyte : ∀ j, j < bpp →
        ((((((raw.drop (y * bpr)).take bpr).take (w * bpp)).drop (x * bpp)).take bpp).getD j 0)
          = raw.getD (y * bpr + x * bpp + j) 0 := by
      intro j hj
      have hxj : x * bpp + j < w * bpp := by
        have hx1 : x + 1 ≤ w := hx
        have := Nat.mul_le_mul_right bpp hx1
        have hexp : (x + 1) * bpp = x * bpp + bpp := by ring
        omega
      have hxb : x * bpp + j < bpr := by omega
      rw [getD_take_of_lt _ _ _ _ hj, getD_drop_add, getD_take_of_lt _ _ _ _ (by omega),
        getD_take_of_lt _ _ _ _ (by omega), getD_drop_add, Nat.add_assoc]
    rw [hbyte 2 hbpp2, hbyte 1 (by omega), hbyte 0 (by omega)]
    simp

/-- C8: when the container reports zero frames but a positive duration, the
total frame count is estimated by `floor(duration * time_base * framerate)`
on the PyAV path and `floor(duration_seconds * framerate)` (with
`duration_seconds = value / timescale`) on the AVFoundation path; the
estimate is never negative. -/
theorem total_frames_estimate_nonneg (d : ℤ) (tb fr : ℚ) (v ts : ℤ) (fr2 : ℚ)
    (hd : 0 < d) (htb : 0 ≤ tb) (hfr : 0 ≤ fr)
    (hv : 0 ≤ v) (hts : 0 < ts) (hfr2 : 0 ≤ fr2) :
    pyavTotalFrames 0 (some d) tb fr = ⌊(d : ℚ) * tb * fr⌋ ∧
    0 ≤ pyavTotalFrames 0 (some d) tb fr ∧
    avfTotalFrames v ts fr2 = ⌊(v : ℚ) / (ts : ℚ) * fr2⌋ ∧
    0 ≤ avfTotalFrames v ts fr2 := by
  have hdq : (0 : ℚ) ≤ (d : ℚ) * tb * fr :=
    mul_nonneg (mul_nonneg (by exact_mod_cast hd.le) htb) hfr
  have hvq : (0 : ℚ) ≤ (v : ℚ) / (ts : ℚ) * fr2 :=
    mul_nonneg (div_nonneg (by exact_mod_cast hv) (by exact_mod_cast hts.le)) hfr2
  have h1 : pyavTotalFrames 0 (some d) tb fr = ⌊(d : ℚ) * tb * fr⌋ := by
    unfold pyavTotalFrames
    rw [if_pos rfl]
    dsimp only
    rw [if_neg (by omega : ¬d = 0)]
    exact pyInt_of_nonneg hdq
  have h2 : avfTotalFrames v ts fr2 = ⌊(v : ℚ) / (ts : ℚ) * fr2⌋ := by
    unfold avfTotalFrames
    exact pyInt_of_nonneg hvq
  refine ⟨h1, ?_, h2, ?_⟩
  · rw [h1]
    exact Int.le_floor.mpr (by exact_mod_cast hdq)
  · rw [h2]
    exact Int.le_floor.mpr (by exact_mod_cast hvq)

/-! ### Concrete witnesses -/

theorem mkFrames_get (n i : Nat) (hi : i < (mkFrames n).length) :
    (mkFrames n).get ⟨i, hi⟩ = { pts := Int.ofNat i, key := true, data := [i] } := by
  unfold mkFrames at hi ⊢
  simp [List.get_map, List.get_range]

theorem mkSeeker_pts (n : Nat) (total : ℤ) (i : Nat)
    (hi : i < (mkSeeker n total).container.frames.length) :
    0 ≤ ((mkSeeker n total).container.frames.get ⟨i, hi⟩).pts := by
  show 0 ≤ ((mkFrames n).get ⟨i, hi⟩).pts
  rw [mkFrames_get]
  exact Int.ofNat_nonneg i

theorem mkSeeker_idx (n : Nat) (total : ℤ) (i : Nat)
    (hi : i < (mkSeeker n total).container.frames.length) :
    ⌊(((mkSeeker n total).container.frames.get ⟨i, hi⟩).pts : ℚ)
        * (mkSeeker n total).time_base * (mkSeeker n total).framerate⌋ = (i : ℤ) := by
  show ⌊(((mkFrames n).get ⟨i, hi⟩).pts : ℚ) * 1 * 1⌋ = (i : ℤ)
  rw [mkFrames_get]
  push_cast
  simp

theorem seek_lands_on_target_witness :
    ∃ hf : (7 : ℤ).toNat < demoSeeker.container.frames.length,
      (demoSeeker.seek_to_frame 7).1
        = some ((demoSeeker.container.frames.get ⟨(7 : ℤ).toNat, hf⟩).data) ∧
      ⌊((demoSeeker.container.frames.get ⟨(7 : ℤ).toNat, hf⟩).pts : ℚ)
          * demoSeeker.time_base * demoSeeker.framerate⌋ = 7 :=
  seek_lands_on_target demoSeeker 7 (by decide) (by decide) (by decide) (by decide)
    (by decide) (mkSeeker_pts 13 13) (mkSeeker_idx 13 13)

theorem debounce_single_seek_witness :
    (demoPlayer.run (([(1 : ℚ), 2, 3]).map WSEvent.update ++ [WSEvent.fire])).seekLog
      = demoPlayer.seekLog
        ++ [((3 : ℚ), wsFrame 3 demoPlayer.framerate demoPlayer.total_frames)] :=
  debounce_single_seek demoPlayer [1, 2, 3] (by decide) rfl

theorem each_request_one_seek_witness :
    (demoSeeker.processRequests [10, 11, 12]).seek_count = demoSeeker.seek_count + 3 :=
  each_request_one_seek demoSeeker [10, 11, 12] (by decide)

theorem out_of_range_no_decoder_call_witness :
    demoSeeker.seek_to_frame (-1) = (none, demoSeeker) ∧
    demoGrabber.grab_frame_number (-1) = (none, demoGrabber) :=
  out_of_range_no_decoder_call demoSeeker demoGrabber (-1)
    (Or.inl (by decide)) (Or.inl (by decide))

theorem ws_seek_clamped_in_range_witness :
    pendingPlayer.perform_ws_seek.seekLog
      = pendingPlayer.seekLog
        ++ [((2 : ℚ), wsFrame 2 pendingPlayer.framerate pendingPlayer.total_frames)] ∧
    wsFrame 2 pendingPlayer.framerate pendingPlayer.total_frames
      = max 0 (min ⌊(2 : ℚ) * pendingPlayer.framerate⌋ (pendingPlayer.total_frames - 1)) ∧
    0 ≤ wsFrame 2 pendingPlayer.framerate pendingPlayer.total_frames ∧
    wsFrame 2 pendingPlayer.framerate pendingPlayer.total_frames
      < pendingPlayer.total_frames :=
  ws_seek_clamped_in_range pendingPlayer 2 rfl rfl (by decide)

theorem decode_forward_bounded_witness :
    (exhSeeker.seekAux 3).2.2.2 ≤ ((3 : ℤ) - (exhSeeker.seekAux 3).2.2.1).toNat ∧
    ((exhSeeker.container.frames.length : ℤ) ≤ 3 → (exhSeeker.seekAux 3).1 = none) :=
  decode_forward_bounded exhSeeker 3 (by decide) (by decide) (by decide) (by decide)
    (by decide) (mkSeeker_pts 2 5) (mkSeeker_idx 2 5)

theorem raw_buffer_rgb_normalized_witness :
    (processRaw [10, 20, 30, 40, 99] 1 1 5 4).length = 1 ∧
    (∀ row ∈ processRaw [10, 20, 30, 40, 99] 1 1 5 4,
      row.length = 1 ∧ ∀ px ∈ row, px.length = 3) ∧
    (∀ y x, y < 1 → x < 1 →
      ((processRaw [10, 20, 30, 40, 99] 1 1 5 4).getD y []).getD x []
        = [List.getD [10, 20, 30, 40, 99] (y * 5 + x * 4 + 2) 0,
           List.getD [10, 20, 30, 40, 99] (y * 5 + x * 4 + 1) 0,
           List.getD [10, 20, 30, 40, 99] (y * 5 + x * 4) 0]) :=
  raw_buffer_rgb_normalized [10, 20, 30, 40, 99] 1 1 5 4 (by decide) (Or.inl rfl)

theorem total_frames_estimate_nonneg_witness :
    pyavTotalFrames 0 (some 2) 1 1 = ⌊((2 : ℤ) : ℚ) * 1 * 1⌋ ∧
    0 ≤ pyavTotalFrames 0 (some 2) 1 1 ∧
    avfTotalFrames 2 1 1 = ⌊((2 : ℤ) : ℚ) / ((1 : ℤ) : ℚ) * 1⌋ ∧
    0 ≤ avfTotalFrames 2 1 1 :=
  total_frames_estimate_nonneg 2 1 1 2 1 1 (by decide) (by decide) (by decide)
    (by decide) (by decide) (by decide)

theorem seek_roundtrip_deterministic_witness :
    ((demoSeeker.seek_to_frame 2).2.seek_to_frame 2).1 = (demoSeeker.seek_to_frame 2).1 :=
  seek_roundtrip_deterministic demoSeeker 2 (by decide) (by decide)

theorem seek_failure_keeps_current_witness :
    (demoSeeker.seek_to_frame (-1)).2.current_frame_num = demoSeeker.current_frame_num ∧
    (demoSeeker.seek_to_frame (-1)).2.current_frame = demoSeeker.current_frame :=
  seek_failure_keeps_current demoSeeker (-1)
    (by rw [seek_rejects_out_of_range demoSeeker (-1) (Or.inl (by decide))])
